import Mathlib

/-!
Verification of the safe-arithmetic module (dng_safe_arithmetic.h / .cpp).

Unsigned C++ values (uint32_t, size_t) are modelled as Nat; signed values
(int32_t, int64_t) as Int. C++ unsigned division and modulo coincide with
Nat division and modulo on in-range values; C++ signed division truncates
toward zero, which is Int.tdiv. Throwing functions are modelled as
Option-returning functions (none = a dng_exception was raised); status-form
functions that write through a pointer are modelled by passing the output
slot value explicitly and returning the pair of the boolean status and the
final slot value.
-/

/-- Range bound of int32_t, as used via std numeric limits in the source. -/
def int32Min : Int := -2147483648

/-- Range bound of int32_t. -/
def int32Max : Int := 2147483647

/-- Range bound of int64_t (INT64_MIN in the source). -/
def int64Min : Int := -9223372036854775808

/-- Range bound of int64_t (INT64_MAX in the source). -/
def int64Max : Int := 9223372036854775807

/-- Range bound of uint32_t. -/
def uint32Max : Nat := 4294967295

/-- Range bound of size_t, modelled as the usual 64-bit platform type. -/
def sizetMax : Nat := 18446744073709551615

/-- Template SafeAdd of dng_safe_arithmetic.cpp lines 23-40, for a signed
integer type with range lo..hi: the sum is returned when the valid-range
test passes, otherwise a dng_exception is raised (modelled as none). -/
def SafeAdd (lo hi : Int) (arg1 arg2 : Int) : Option Int :=
  if (0 ≤ arg1 ∧ arg2 ≤ hi - arg1) ∨ (arg1 < 0 ∧ lo - arg1 ≤ arg2) then
    some (arg1 + arg2)
  else
    none

/-- Template SafeAdd instantiated at an unsigned integer type with range
0..max: the second disjunct of the condition (arg1 < 0) is identically
false there, and max - arg1 is the truncated (Nat) subtraction, which for
in-range arg1 equals the exact difference. -/
def SafeUAdd (max arg1 arg2 : Nat) : Option Nat :=
  if arg2 ≤ max - arg1 then some (arg1 + arg2) else none

/-- SafeInt32Add, result form (dng_safe_arithmetic.cpp line 68). -/
def SafeInt32Add (arg1 arg2 : Int) : Option Int :=
  SafeAdd int32Min int32Max arg1 arg2

/-- SafeInt64Add, result form (dng_safe_arithmetic.cpp line 72). -/
def SafeInt64Add (arg1 arg2 : Int) : Option Int :=
  SafeAdd int64Min int64Max arg1 arg2

/-- SafeUint32Add, result form (dng_safe_arithmetic.cpp line 86). -/
def SafeUint32Add (arg1 arg2 : Nat) : Option Nat :=
  SafeUAdd uint32Max arg1 arg2

/-- Template SafeUnsignedMult (dng_safe_arithmetic.cpp lines 45-55) for an
unsigned type with range 0..max. The source condition is the short-circuit
disjunction arg1 == 0 or arg2 <= max / arg1. -/
def SafeUnsignedMult (max arg1 arg2 : Nat) : Option Nat :=
  if arg1 = 0 ∨ arg2 ≤ max / arg1 then some (arg1 * arg2) else none

/-- SafeUint32Mult, binary result form (dng_safe_arithmetic.cpp line 140). -/
def SafeUint32Mult (arg1 arg2 : Nat) : Option Nat :=
  SafeUnsignedMult uint32Max arg1 arg2

/-- SafeUint32Mult, ternary result form (line 144): left-to-right chaining
of the binary form, SafeUint32Mult(SafeUint32Mult(arg1, arg2), arg3). -/
def SafeUint32Mult3 (arg1 arg2 arg3 : Nat) : Option Nat :=
  (SafeUint32Mult arg1 arg2).bind fun p => SafeUint32Mult p arg3

/-- SafeUint32Mult, quaternary result form (line 149). -/
def SafeUint32Mult4 (arg1 arg2 arg3 arg4 : Nat) : Option Nat :=
  (SafeUint32Mult3 arg1 arg2 arg3).bind fun p => SafeUint32Mult p arg4

/-- SafeSizetMult (dng_safe_arithmetic.cpp line 154). -/
def SafeSizetMult (arg1 arg2 : Nat) : Option Nat :=
  SafeUnsignedMult sizetMax arg1 arg2

/-- SafeInt32Sub, status form (dng_safe_arithmetic.cpp lines 90-98). This
form is the primitive: it performs the range check directly and writes the
difference only in the success branch. The slot argument is the value held
by *result on entry. -/
def SafeInt32SubS (arg1 arg2 : Int) (result : Int) : Bool × Int :=
  if (0 ≤ arg2 ∧ int32Min + arg2 ≤ arg1) ∨ (arg2 < 0 ∧ arg1 ≤ int32Max + arg2) then
    (true, arg1 - arg2)
  else
    (false, result)

/-- SafeInt32Sub, result form (lines 100-108): calls the status form on a
local slot initialised to 0 and raises when it reports failure. -/
def SafeInt32Sub (arg1 arg2 : Int) : Option Int :=
  let r := SafeInt32SubS arg1 arg2 0
  if r.1 then some r.2 else none

/-- SafeInt64Mult (dng_safe_arithmetic.cpp lines 158-183): sign-quadrant
analysis with one truncated division per quadrant. C++ signed division is
Int.tdiv. -/
def SafeInt64Mult (arg1 arg2 : Int) : Option Int :=
  let overflow : Bool :=
    if 0 < arg1 then
      if 0 < arg2 then
        decide (int64Max.tdiv arg2 < arg1)
      else
        decide (arg2 < int64Min.tdiv arg1)
    else
      if 0 < arg2 then
        decide (arg1 < int64Min.tdiv arg2)
      else
        decide (arg1 ≠ 0) && decide (arg2 < int64Max.tdiv arg1)
  if overflow then none else some (arg1 * arg2)

/-- SafeUint32DivideUp (dng_safe_arithmetic.cpp lines 185-204). -/
def SafeUint32DivideUp (arg1 arg2 : Nat) : Option Nat :=
  if arg2 = 0 then
    none
  else if arg1 = 0 then
    some 0
  else
    some ((arg1 - 1) / arg2 + 1)

/-- RoundUpUint32ToMultiple (dng_safe_arithmetic.cpp lines 206-219), with
the final slot write of the delegated SafeUint32Add status call expressed
through the Option result; none = returned false. -/
def RoundUpUint32ToMultiple (val multiple_of : Nat) : Option Nat :=
  if multiple_of = 0 then
    none
  else
    let remainder := val % multiple_of
    if remainder = 0 then some val
    else SafeUint32Add val (multiple_of - remainder)

/-- ConvertUint32ToInt32 (dng_safe_arithmetic.cpp lines 221-231), as an
Option-valued function: some on success. -/
def ConvertUint32ToInt32 (val : Nat) : Option Int :=
  if val ≤ 2147483647 then some (Int.ofNat val) else none

/-- ConvertUnsigned (dng_safe_arithmetic.h lines 119-136) for unsigned
source and destination types of bit widths ws and wd: a static_cast
between unsigned types reduces the value modulo 2 to the width. Returns
some converted value, or none when the round-trip check fails and a
dng_exception is raised. -/
def ConvertUnsigned (ws wd : Nat) (src : Nat) : Option Nat :=
  let converted := src % 2 ^ wd
  if converted % 2 ^ ws ≠ src then none else some converted

/-!
Status (pointer) forms. Each takes the value held by *result on entry and
returns the boolean status together with the final value of *result. The
try/catch wrappers of the source (SafeInt32Add lines 59-66, SafeUint32Add
lines 76-84, SafeUint32Mult lines 110-138) assign *result only after the
throwing call returned, so on an exception the slot keeps its entry value.
-/

/-- SafeInt32Add, status form (lines 59-66): try/catch around the result
form. -/
def SafeInt32AddS (arg1 arg2 : Int) (result : Int) : Bool × Int :=
  match SafeInt32Add arg1 arg2 with
  | some v => (true, v)
  | none => (false, result)

/-- SafeUint32Add, status form (lines 76-84). -/
def SafeUint32AddS (arg1 arg2 : Nat) (result : Nat) : Bool × Nat :=
  match SafeUint32Add arg1 arg2 with
  | some v => (true, v)
  | none => (false, result)

/-- SafeUint32Mult, binary status form (lines 110-118). -/
def SafeUint32MultS (arg1 arg2 : Nat) (result : Nat) : Bool × Nat :=
  match SafeUint32Mult arg1 arg2 with
  | some v => (true, v)
  | none => (false, result)

/-- SafeUint32Mult, ternary status form (lines 120-128). -/
def SafeUint32Mult3S (arg1 arg2 arg3 : Nat) (result : Nat) : Bool × Nat :=
  match SafeUint32Mult3 arg1 arg2 arg3 with
  | some v => (true, v)
  | none => (false, result)

/-- SafeUint32Mult, quaternary status form (lines 130-138). -/
def SafeUint32Mult4S (arg1 arg2 arg3 arg4 : Nat) (result : Nat) : Bool × Nat :=
  match SafeUint32Mult4 arg1 arg2 arg3 arg4 with
  | some v => (true, v)
  | none => (false, result)

/-- RoundUpUint32ToMultiple, slot form (lines 206-219): *result is written
in the remainder-zero branch, and otherwise only by the delegated
SafeUint32Add status call. -/
def RoundUpUint32ToMultipleS (val multiple_of : Nat) (result : Nat) : Bool × Nat :=
  if multiple_of = 0 then
    (false, result)
  else
    let remainder := val % multiple_of
    if remainder = 0 then (true, val)
    else SafeUint32AddS val (multiple_of - remainder) result

/-- ConvertUint32ToInt32, slot form (lines 221-231): *result is written
only in the success branch. -/
def ConvertUint32ToInt32S (val : Nat) (result : Int) : Bool × Int :=
  if val ≤ 2147483647 then (true, Int.ofNat val) else (false, result)

/-- ConvertUnsigned, slot form (dng_safe_arithmetic.h lines 119-136): the
throw happens before the write to *dest, so on failure (first component
false) the slot keeps its entry value. -/
def ConvertUnsignedW (ws wd : Nat) (src : Nat) (dest : Nat) : Bool × Nat :=
  let converted := src % 2 ^ wd
  if converted % 2 ^ ws ≠ src then (false, dest) else (true, converted)

/-!
Instrumented status forms for the control-flow refinement claim. Each
returns, besides the status and the slot, a flag recording whether the
call caught a condition that was raised by the throwing path (the catch
clauses at lines 63, 81 of the source); a form whose source contains no
try/catch and calls no catching helper has a constantly false flag.
-/

/-- SafeInt32Add status form with a caught-condition flag: the source
(lines 59-66) invokes the throwing result form and catches dng_exception,
so the flag is set exactly when the catch clause runs. -/
def SafeInt32AddC (arg1 arg2 : Int) (result : Int) : Bool × Int × Bool :=
  match SafeInt32Add arg1 arg2 with
  | some v => (true, v, false)
  | none => (false, result, true)

/-- SafeUint32Add status form with a caught-condition flag (lines 76-84). -/
def SafeUint32AddC (arg1 arg2 : Nat) (result : Nat) : Bool × Nat × Bool :=
  match SafeUint32Add arg1 arg2 with
  | some v => (true, v, false)
  | none => (false, result, true)

/-- SafeInt32Sub status form with a caught-condition flag: the source
(lines 90-98) performs the range check directly and contains no try/catch,
so the flag is false on every path. -/
def SafeInt32SubC (arg1 arg2 : Int) (result : Int) : Bool × Int × Bool :=
  if (0 ≤ arg2 ∧ int32Min + arg2 ≤ arg1) ∨ (arg2 < 0 ∧ arg1 ≤ int32Max + arg2) then
    (true, arg1 - arg2, false)
  else
    (false, result, false)

/-- RoundUpUint32ToMultiple with a caught-condition flag: the source
(lines 206-219) has no try/catch of its own but delegates to the catching
SafeUint32Add status form, whose flag is propagated. -/
def RoundUpUint32ToMultipleC (val multiple_of : Nat) (result : Nat) : Bool × Nat × Bool :=
  if multiple_of = 0 then
    (false, result, false)
  else
    let remainder := val % multiple_of
    if remainder = 0 then (true, val, false)
    else SafeUint32AddC val (multiple_of - remainder) result

/-!
Division-guarded variants for the division-safety claim. Every division or
modulo site of the source is replaced by a guarded operation that fails
(outer none) when its divisor is zero; the outer layer thus witnesses that
no executed division has a zero divisor.
-/

/-- Division on Nat that fails on a zero divisor. -/
def checkedDiv (a b : Nat) : Option Nat :=
  if b = 0 then none else some (a / b)

/-- Modulo on Nat that fails on a zero divisor. -/
def checkedMod (a b : Nat) : Option Nat :=
  if b = 0 then none else some (a % b)

/-- Truncated division on Int that fails on a zero divisor. -/
def checkedTdiv (a b : Int) : Option Int :=
  if b = 0 then none else some (a.tdiv b)

/-- SafeUnsignedMult with its division site guarded: the short-circuit
disjunction of the source evaluates max / arg1 only when arg1 is nonzero. -/
def SafeUnsignedMultChecked (max arg1 arg2 : Nat) : Option (Option Nat) :=
  if arg1 = 0 then
    some (some (arg1 * arg2))
  else
    (checkedDiv max arg1).map fun q =>
      if arg2 ≤ q then some (arg1 * arg2) else none

/-- SafeInt64Mult with its four division sites guarded, mirroring the
quadrant structure of lines 158-183; the last quadrant evaluates its
division only when arg1 is nonzero, by the short-circuit at line 171. -/
def SafeInt64MultChecked (arg1 arg2 : Int) : Option (Option Int) :=
  (if 0 < arg1 then
    if 0 < arg2 then
      (checkedTdiv int64Max arg2).map fun q => decide (q < arg1)
    else
      (checkedTdiv int64Min arg1).map fun q => decide (arg2 < q)
  else
    if 0 < arg2 then
      (checkedTdiv int64Min arg2).map fun q => decide (arg1 < q)
    else
      if arg1 = 0 then some false
      else (checkedTdiv int64Max arg1).map fun q => decide (arg2 < q)
  ).map fun overflow => if overflow then none else some (arg1 * arg2)

/-- SafeUint32DivideUp with its division site guarded: the zero divisor is
rejected (raising the division-by-zero condition, inner none) before any
division executes. -/
def SafeUint32DivideUpChecked (arg1 arg2 : Nat) : Option (Option Nat) :=
  if arg2 = 0 then
    some none
  else if arg1 = 0 then
    some (some 0)
  else
    (checkedDiv (arg1 - 1) arg2).map fun q => some (q + 1)

/-- RoundUpUint32ToMultiple with its modulo site guarded: val is reduced
modulo multiple_of only after multiple_of = 0 has been rejected. -/
def RoundUpUint32ToMultipleChecked (val multiple_of : Nat) : Option (Option Nat) :=
  if multiple_of = 0 then
    some none
  else
    (checkedMod val multiple_of).map fun remainder =>
      if remainder = 0 then some val
      else SafeUint32Add val (multiple_of - remainder)

/-- Right-associated grouping of three checked multiplications,
SafeUint32Mult(arg1, SafeUint32Mult(arg2, arg3)), written for comparison
with the left-to-right chaining used by the source. -/
def SafeUint32MultRight3 (arg1 arg2 arg3 : Nat) : Option Nat :=
  (SafeUint32Mult arg2 arg3).bind fun p => SafeUint32Mult arg1 p

/-!
Helper lemmas: closed-form characterisations of the checked operations.
-/

/-- The template SafeUnsignedMult succeeds exactly when the true product
fits below max, and then returns that product. -/
theorem SafeUnsignedMult_eq (max a b : Nat) :
    SafeUnsignedMult max a b = if a * b ≤ max then some (a * b) else none := by
  unfold SafeUnsignedMult
  rcases Nat.eq_zero_or_pos a with h | h
  · subst h; simp
  · have hne : a ≠ 0 := Nat.pos_iff_ne_zero.mp h
    have h1 : (a = 0 ∨ b ≤ max / a) ↔ a * b ≤ max := by
      rw [Nat.le_div_iff_mul_le h, Nat.mul_comm b a]
      simp [hne]
    simp only [h1]

/-- The ternary chained multiplication in closed form. -/
theorem SafeUint32Mult3_eq (a b c : Nat) :
    SafeUint32Mult3 a b c =
      if a * b ≤ uint32Max ∧ a * b * c ≤ uint32Max then some (a * b * c) else none := by
  unfold SafeUint32Mult3 SafeUint32Mult
  simp only [SafeUnsignedMult_eq]
  by_cases h1 : a * b ≤ uint32Max
  · rw [if_pos h1]
    by_cases h2 : a * b * c ≤ uint32Max
    · simp [h1, h2]
    · simp [h2]
  · rw [if_neg h1]
    simp [h1]

/-- The signed SafeAdd template succeeds exactly when the true sum lies in
lo..hi, provided the second operand is itself in range. -/
theorem SafeAdd_eq (lo hi a b : Int) (hb1 : lo ≤ b) (hb2 : b ≤ hi) :
    SafeAdd lo hi a b = if lo ≤ a + b ∧ a + b ≤ hi then some (a + b) else none := by
  unfold SafeAdd
  have h1 : ((0 ≤ a ∧ b ≤ hi - a) ∨ (a < 0 ∧ lo - a ≤ b)) ↔ (lo ≤ a + b ∧ a + b ≤ hi) := by
    constructor
    · rintro (⟨hx, hy⟩ | ⟨hx, hy⟩) <;> omega
    · rintro ⟨hx, hy⟩
      rcases le_or_lt 0 a with h | h
      · exact Or.inl ⟨h, by omega⟩
      · exact Or.inr ⟨h, by omega⟩
  simp only [h1]

/-- The unsigned SafeAdd instantiation succeeds exactly when the true sum
fits below max, provided the first operand is itself in range. -/
theorem SafeUAdd_eq (max a b : Nat) (ha : a ≤ max) :
    SafeUAdd max a b = if a + b ≤ max then some (a + b) else none := by
  unfold SafeUAdd
  have h1 : (b ≤ max - a) ↔ (a + b ≤ max) := by omega
  simp only [h1]

/-- The right-associated grouping in closed form. -/
theorem SafeUint32MultRight3_eq (a b c : Nat) :
    SafeUint32MultRight3 a b c =
      if b * c ≤ uint32Max ∧ a * (b * c) ≤ uint32Max then some (a * (b * c)) else none := by
  unfold SafeUint32MultRight3 SafeUint32Mult
  simp only [SafeUnsignedMult_eq]
  by_cases h1 : b * c ≤ uint32Max
  · rw [if_pos h1]
    by_cases h2 : a * (b * c) ≤ uint32Max
    · simp [h1, h2]
    · simp [h2]
  · rw [if_neg h1]
    simp [h1]

/-!
Claim theorems.
-/

/-- Claim C2: for every pair of operands of the same integer type (int32,
uint32, int64), checked addition succeeds if and only if the exact
mathematical sum is representable in that type, and on success the
returned or stored value equals that exact sum. -/
theorem claim_C2 :
    (∀ a b : Int, int32Min ≤ a → a ≤ int32Max → int32Min ≤ b → b ≤ int32Max →
      (SafeInt32Add a b = some (a + b) ↔ (int32Min ≤ a + b ∧ a + b ≤ int32Max)) ∧
      (¬(int32Min ≤ a + b ∧ a + b ≤ int32Max) → SafeInt32Add a b = none)) ∧
    (∀ a b : Int, int64Min ≤ a → a ≤ int64Max → int64Min ≤ b → b ≤ int64Max →
      (SafeInt64Add a b = some (a + b) ↔ (int64Min ≤ a + b ∧ a + b ≤ int64Max)) ∧
      (¬(int64Min ≤ a + b ∧ a + b ≤ int64Max) → SafeInt64Add a b = none)) ∧
    (∀ a b : Nat, a ≤ uint32Max → b ≤ uint32Max →
      (SafeUint32Add a b = some (a + b) ↔ a + b ≤ uint32Max) ∧
      (uint32Max < a + b → SafeUint32Add a b = none)) := by
  refine ⟨?_, ?_, ?_⟩
  · intro a b ha1 ha2 hb1 hb2
    have he := SafeAdd_eq int32Min int32Max a b hb1 hb2
    by_cases h : int32Min ≤ a + b ∧ a + b ≤ int32Max
    · rw [show SafeInt32Add a b = _ from he, if_pos h]
      exact ⟨⟨fun _ => h, fun _ => rfl⟩, fun hn => absurd h hn⟩
    · rw [show SafeInt32Add a b = _ from he, if_neg h]
      exact ⟨⟨fun hc => Option.noConfusion hc, fun hc => absurd hc h⟩, fun _ => rfl⟩
  · intro a b ha1 ha2 hb1 hb2
    have he := SafeAdd_eq int64Min int64Max a b hb1 hb2
    by_cases h : int64Min ≤ a + b ∧ a + b ≤ int64Max
    · rw [show SafeInt64Add a b = _ from he, if_pos h]
      exact ⟨⟨fun _ => h, fun _ => rfl⟩, fun hn => absurd h hn⟩
    · rw [show SafeInt64Add a b = _ from he, if_neg h]
      exact ⟨⟨fun hc => Option.noConfusion hc, fun hc => absurd hc h⟩, fun _ => rfl⟩
  · intro a b ha hb
    have he := SafeUAdd_eq uint32Max a b ha
    by_cases h : a + b ≤ uint32Max
    · rw [show SafeUint32Add a b = _ from he, if_pos h]
      exact ⟨⟨fun _ => h, fun _ => rfl⟩, fun hn => absurd h (by omega)⟩
    · rw [show SafeUint32Add a b = _ from he, if_neg h]
      exact ⟨⟨fun hc => Option.noConfusion hc, fun hc => absurd hc h⟩, fun _ => rfl⟩

/-- Witness for claim C2 at concrete in-range inputs. -/
theorem claim_C2_witness :
    SafeInt32Add 1 2 = some 3 ∧ SafeInt64Add 1 2 = some 3 ∧ SafeUint32Add 1 2 = some 3 := by
  refine ⟨?_, ?_, ?_⟩
  · exact ((claim_C2.1 1 2 (by decide) (by decide) (by decide) (by decide)).1).mpr (by decide)
  · exact ((claim_C2.2.1 1 2 (by decide) (by decide) (by decide) (by decide)).1).mpr (by decide)
  · exact ((claim_C2.2.2 1 2 (by decide) (by decide)).1).mpr (by decide)

/-- Claim C3: binary checked unsigned multiplication succeeds if and only
if the exact product is representable, returning it on success: a zero
first operand yields 0, otherwise overflow occurs exactly when the second
operand exceeds max divided by the first; the two quoted concrete cases
behave as stated. -/
theorem claim_C3 :
    (∀ max a b : Nat,
      (a * b ≤ max ∧ SafeUnsignedMult max a b = some (a * b)) ∨
      (max < a * b ∧ SafeUnsignedMult max a b = none)) ∧
    (∀ a b : Nat, SafeUint32Mult a b = if a * b ≤ uint32Max then some (a * b) else none) ∧
    (∀ a b : Nat, SafeSizetMult a b = if a * b ≤ sizetMax then some (a * b) else none) ∧
    SafeUint32Mult 4294967295 2 = none ∧
    SafeUint32Mult 0 4294967295 = some 0 := by
  refine ⟨?_, ?_, ?_, ?_, ?_⟩
  · intro max a b
    rcases le_or_lt (a * b) max with h | h
    · exact Or.inl ⟨h, by rw [SafeUnsignedMult_eq, if_pos h]⟩
    · exact Or.inr ⟨h, by rw [SafeUnsignedMult_eq, if_neg (Nat.not_le.mpr h)]⟩
  · intro a b
    exact SafeUnsignedMult_eq uint32Max a b
  · intro a b
    exact SafeUnsignedMult_eq sizetMax a b
  · decide
  · decide

/-- Claim C6 counterexample: the two groupings of three checked
multiplications disagree on success at arg1 = 0, arg2 = arg3 = 65536. The
left-to-right grouping of the source succeeds with 0, while the
right-associated grouping fails on its inner product. -/
theorem claim_C6_counterexample :
    SafeUint32Mult3 0 65536 65536 = some 0 ∧
    SafeUint32MultRight3 0 65536 65536 = none := by
  constructor <;> decide

/-- Claim C6 as amended: the two groupings agree on the result whenever
both succeed, and when every operand is positive they also agree on
success versus failure; a zero operand can mask an overflow in one
grouping but not the other. -/
theorem claim_C6_amended :
    ∀ a b c : Nat,
      (∀ x y, SafeUint32Mult3 a b c = some x → SafeUint32MultRight3 a b c = some y → x = y) ∧
      (0 < a → 0 < b → 0 < c →
        (SafeUint32Mult3 a b c).isSome = (SafeUint32MultRight3 a b c).isSome) := by
  intro a b c
  constructor
  · intro x y hx hy
    rw [SafeUint32Mult3_eq] at hx
    rw [SafeUint32MultRight3_eq] at hy
    by_cases h1 : a * b ≤ uint32Max ∧ a * b * c ≤ uint32Max
    · rw [if_pos h1] at hx
      by_cases h2 : b * c ≤ uint32Max ∧ a * (b * c) ≤ uint32Max
      · rw [if_pos h2] at hy
        cases hx
        cases hy
        exact Nat.mul_assoc a b c
      · rw [if_neg h2] at hy
        exact Option.noConfusion hy
    · rw [if_neg h1] at hx
      exact Option.noConfusion hx
  · intro ha hb hc
    rw [SafeUint32Mult3_eq, SafeUint32MultRight3_eq]
    by_cases h : a * b * c ≤ uint32Max
    · have hab : a * b ≤ uint32Max :=
        le_trans (le_mul_of_one_le_right (Nat.zero_le _) hc) h
      have hbc : b * c ≤ uint32Max := by
        have h2 : b * c ≤ a * (b * c) := le_mul_of_one_le_left (Nat.zero_le _) ha
        have h3 : a * (b * c) = a * b * c := (Nat.mul_assoc a b c).symm
        omega
      rw [if_pos ⟨hab, h⟩, if_pos ⟨hbc, by rw [← Nat.mul_assoc]; exact h⟩]
      rfl
    · rw [if_neg (fun hc2 => h hc2.2), if_neg (fun hc2 => h (by rw [Nat.mul_assoc]; exact hc2.2))]

/-- Witness for claim C6 as amended, at arg1 = 2, arg2 = 3, arg3 = 4. -/
theorem claim_C6_amended_witness :
    (24 : Nat) = 24 ∧
    (SafeUint32Mult3 2 3 4).isSome = (SafeUint32MultRight3 2 3 4).isSome := by
  refine ⟨?_, ?_⟩
  · exact (claim_C6_amended 2 3 4).1 24 24 (by decide) (by decide)
  · exact (claim_C6_amended 2 3 4).2 (by decide) (by decide) (by decide)

/-- Claim C4: for positive divisors SafeUint32DivideUp returns the exact
ceiling of the quotient, characterised by result mul divisor at least the
dividend and strictly below it after decrementing the result; a zero
dividend gives 0 and a zero divisor raises the division-by-zero
condition. -/
theorem claim_C4 :
    (∀ a b : Nat, 0 < b →
      ∃ r, SafeUint32DivideUp a b = some r ∧ a ≤ r * b ∧ (0 < r → (r - 1) * b < a)) ∧
    (∀ b : Nat, 0 < b → SafeUint32DivideUp 0 b = some 0) ∧
    (∀ a : Nat, SafeUint32DivideUp a 0 = none) := by
  refine ⟨?_, ?_, ?_⟩
  · intro a b hb
    unfold SafeUint32DivideUp
    rw [if_neg (Nat.pos_iff_ne_zero.mp hb)]
    rcases Nat.eq_zero_or_pos a with ha | ha
    · subst ha
      rw [if_pos rfl]
      exact ⟨0, rfl, by simp, by simp⟩
    · rw [if_neg (Nat.pos_iff_ne_zero.mp ha)]
      refine ⟨(a - 1) / b + 1, rfl, ?_, ?_⟩
      · have h1 : a - 1 < ((a - 1) / b + 1) * b :=
          (Nat.div_lt_iff_lt_mul hb).mp (Nat.lt_succ_self _)
        omega
      · intro _
        have h2 : (a - 1) / b * b ≤ a - 1 := Nat.div_mul_le_self (a - 1) b
        simp only [Nat.add_sub_cancel]
        omega
  · intro b hb
    unfold SafeUint32DivideUp
    rw [if_neg (Nat.pos_iff_ne_zero.mp hb), if_pos rfl]
  · intro a
    unfold SafeUint32DivideUp
    rw [if_pos rfl]

/-- Witness for claim C4 at dividend 10, divisor 3. -/
theorem claim_C4_witness :
    (∃ r, SafeUint32DivideUp 10 3 = some r ∧ 10 ≤ r * 3 ∧ (0 < r → (r - 1) * 3 < 10)) ∧
    SafeUint32DivideUp 0 3 = some 0 :=
  ⟨claim_C4.1 10 3 (by decide), claim_C4.2.1 3 (by decide)⟩

/-- Claim C5 counterexample: with val = 4294967295 and multiple 2 the
smallest multiple of 2 at or above val is 4294967296, which does not fit
in uint32, so the operation fails instead of succeeding as the claim
requires for every positive multiple. -/
theorem claim_C5_counterexample :
    RoundUpUint32ToMultiple 4294967295 2 = none := by decide

/-- Claim C5 as amended: for every in-range val and positive m the call
succeeds exactly when the smallest multiple of m at or above val is
representable in uint32, and then stores that multiple; when it fails,
every multiple of m at or above val exceeds the uint32 range; a zero
multiple always fails. -/
theorem claim_C5_amended :
    ∀ val m : Nat, val ≤ uint32Max → 0 < m →
      ((∀ r, RoundUpUint32ToMultiple val m = some r →
          m ∣ r ∧ val ≤ r ∧ r ≤ uint32Max ∧ ∀ x, m ∣ x → val ≤ x → r ≤ x) ∧
       (RoundUpUint32ToMultiple val m = none → ∀ x, m ∣ x → val ≤ x → uint32Max < x) ∧
       RoundUpUint32ToMultiple val 0 = none) := by
  intro val m hval hm
  have hm0 : m ≠ 0 := Nat.pos_iff_ne_zero.mp hm
  have hrem : val % m < m := Nat.mod_lt _ hm
  have hmod := Nat.div_add_mod val m
  constructor
  · intro r hr
    unfold RoundUpUint32ToMultiple at hr
    rw [if_neg hm0] at hr
    by_cases h0 : val % m = 0
    · rw [if_pos h0] at hr
      cases hr
      exact ⟨Nat.dvd_of_mod_eq_zero h0, Nat.le_refl _, hval, fun x _ hx => hx⟩
    · rw [if_neg h0] at hr
      have he := SafeUAdd_eq uint32Max val (m - val % m) hval
      rw [show SafeUint32Add val (m - val % m) = _ from he] at hr
      by_cases hle : val + (m - val % m) ≤ uint32Max
      · rw [if_pos hle] at hr
        cases hr
        refine ⟨⟨val / m + 1, ?_⟩, by omega, hle, ?_⟩
        · rw [Nat.mul_add, Nat.mul_one]
          omega
        · intro x hx hvx
          obtain ⟨k, rfl⟩ := hx
          have h1 : m * (val / m) < m * k := by omega
          have h2 : val / m < k := Nat.lt_of_mul_lt_mul_left h1
          have h3 : m * (val / m + 1) ≤ m * k := Nat.mul_le_mul_left m h2
          rw [Nat.mul_add, Nat.mul_one] at h3
          omega
      · rw [if_neg hle] at hr
        exact Option.noConfusion hr
  · constructor
    · intro hr x hx hvx
      unfold RoundUpUint32ToMultiple at hr
      rw [if_neg hm0] at hr
      by_cases h0 : val % m = 0
      · rw [if_pos h0] at hr
        exact Option.noConfusion hr
      · rw [if_neg h0] at hr
        have he := SafeUAdd_eq uint32Max val (m - val % m) hval
        rw [show SafeUint32Add val (m - val % m) = _ from he] at hr
        by_cases hle : val + (m - val % m) ≤ uint32Max
        · rw [if_pos hle] at hr
          exact Option.noConfusion hr
        · obtain ⟨k, rfl⟩ := hx
          have h1 : m * (val / m) < m * k := by omega
          have h2 : val / m < k := Nat.lt_of_mul_lt_mul_left h1
          have h3 : m * (val / m + 1) ≤ m * k := Nat.mul_le_mul_left m h2
          rw [Nat.mul_add, Nat.mul_one] at h3
          omega
    · unfold RoundUpUint32ToMultiple
      rw [if_pos rfl]

/-- Witness for claim C5 as amended at val = 10, m = 4. -/
theorem claim_C5_amended_witness :
    4 ∣ 12 ∧ 10 ≤ 12 ∧ 12 ≤ uint32Max ∧ ∀ x : Nat, 4 ∣ x → 10 ≤ x → 12 ≤ x :=
  (claim_C5_amended 10 4 (by decide) (by decide)).1 12 (by decide)

/-- SafeInt64Mult in closed form: it succeeds exactly when the true
product lies in the int64 range, and then returns that product. -/
theorem SafeInt64Mult_eq (a b : Int) :
    SafeInt64Mult a b =
      if int64Min ≤ a * b ∧ a * b ≤ int64Max then some (a * b) else none := by
  have hMin : int64Min = -(9223372036854775808 : Int) := rfl
  have hMaxNonneg : (0 : Int) ≤ int64Max := by decide
  have hNNonneg : (0 : Int) ≤ 9223372036854775808 := by decide
  rcases lt_or_le 0 a with ha | ha <;> rcases lt_or_le 0 b with hb | hb
  · -- quadrant 1: 0 < a, 0 < b
    have htd : int64Max.tdiv b = int64Max / b := Int.tdiv_eq_ediv hMaxNonneg (le_of_lt hb)
    have hiff : int64Max.tdiv b < a ↔ int64Max < a * b := by
      rw [htd, ← not_le, ← not_le]
      exact not_congr (Int.le_ediv_iff_mul_le hb)
    have hlow : int64Min ≤ a * b :=
      le_trans (by decide : int64Min ≤ 0) (le_of_lt (mul_pos ha hb))
    simp only [SafeInt64Mult, if_pos ha, if_pos hb, decide_eq_true_eq]
    by_cases h : int64Max < a * b
    · rw [if_pos (hiff.mpr h), if_neg (fun hc => absurd hc.2 (not_le.mpr h))]
    · rw [if_neg (fun hc => h (hiff.mp hc)), if_pos ⟨hlow, not_lt.mp h⟩]
  · -- quadrant 2: 0 < a, b ≤ 0
    have htd : int64Min.tdiv a = -((9223372036854775808 : Int).tdiv a) := by
      rw [hMin, Int.neg_tdiv]
    have htd2 : (9223372036854775808 : Int).tdiv a = (9223372036854775808 : Int) / a :=
      Int.tdiv_eq_ediv hNNonneg (le_of_lt ha)
    have hiff : b < int64Min.tdiv a ↔ a * b < int64Min := by
      rw [htd, htd2, hMin]
      constructor
      · intro h
        have h1 : ¬(-b ≤ (9223372036854775808 : Int) / a) := by omega
        have h2 : ¬(-b * a ≤ (9223372036854775808 : Int)) :=
          fun hc => h1 ((Int.le_ediv_iff_mul_le ha).mpr hc)
        have h3 : -b * a = -(a * b) := by ring
        omega
      · intro h
        have h3 : -b * a = -(a * b) := by ring
        have h2 : ¬(-b * a ≤ (9223372036854775808 : Int)) := by omega
        have h1 : ¬(-b ≤ (9223372036854775808 : Int) / a) :=
          fun hc => h2 ((Int.le_ediv_iff_mul_le ha).mp hc)
        omega
    have hupper : a * b ≤ int64Max := by
      have h1 : a * b ≤ a * 0 := mul_le_mul_of_nonneg_left hb (le_of_lt ha)
      rw [mul_zero] at h1
      exact le_trans h1 hMaxNonneg
    simp only [SafeInt64Mult, if_pos ha, if_neg (not_lt.mpr hb), decide_eq_true_eq]
    by_cases h : a * b < int64Min
    · rw [if_pos (hiff.mpr h), if_neg (fun hc => absurd hc.1 (not_le.mpr h))]
    · rw [if_neg (fun hc => h (hiff.mp hc)), if_pos ⟨not_lt.mp h, hupper⟩]
  · -- quadrant 3: a ≤ 0, 0 < b
    have htd : int64Min.tdiv b = -((9223372036854775808 : Int).tdiv b) := by
      rw [hMin, Int.neg_tdiv]
    have htd2 : (9223372036854775808 : Int).tdiv b = (9223372036854775808 : Int) / b :=
      Int.tdiv_eq_ediv hNNonneg (le_of_lt hb)
    have hiff : a < int64Min.tdiv b ↔ a * b < int64Min := by
      rw [htd, htd2, hMin]
      constructor
      · intro h
        have h1 : ¬(-a ≤ (9223372036854775808 : Int) / b) := by omega
        have h2 : ¬(-a * b ≤ (9223372036854775808 : Int)) :=
          fun hc => h1 ((Int.le_ediv_iff_mul_le hb).mpr hc)
        have h3 : -a * b = -(a * b) := by ring
        omega
      · intro h
        have h3 : -a * b = -(a * b) := by ring
        have h2 : ¬(-a * b ≤ (9223372036854775808 : Int)) := by omega
        have h1 : ¬(-a ≤ (9223372036854775808 : Int) / b) :=
          fun hc => h2 ((Int.le_ediv_iff_mul_le hb).mp hc)
        omega
    have hupper : a * b ≤ int64Max := by
      have h1 : a * b ≤ 0 * b := mul_le_mul_of_nonneg_right ha (le_of_lt hb)
      rw [zero_mul] at h1
      exact le_trans h1 hMaxNonneg
    simp only [SafeInt64Mult, if_neg (not_lt.mpr ha), if_pos hb, decide_eq_true_eq]
    by_cases h : a * b < int64Min
    · rw [if_pos (hiff.mpr h), if_neg (fun hc => absurd hc.1 (not_le.mpr h))]
    · rw [if_neg (fun hc => h (hiff.mp hc)), if_pos ⟨not_lt.mp h, hupper⟩]
  · -- quadrant 4: a ≤ 0, b ≤ 0
    by_cases ha0 : a = 0
    · subst ha0
      have hcond : int64Min ≤ (0 : Int) * b ∧ (0 : Int) * b ≤ int64Max :=
        ⟨by rw [zero_mul]; decide, by rw [zero_mul]; decide⟩
      simp only [SafeInt64Mult, if_neg (lt_irrefl (0 : Int)), if_neg (not_lt.mpr hb),
        if_pos hcond]
      simp
    · have ha' : a < 0 := lt_of_le_of_ne ha ha0
      have hnega : (0 : Int) < -a := by omega
      have htd : int64Max.tdiv a = -(int64Max.tdiv (-a)) := by
        have h0 := Int.tdiv_neg int64Max (-a)
        rwa [neg_neg] at h0
      have htd2 : int64Max.tdiv (-a) = int64Max / (-a) :=
        Int.tdiv_eq_ediv hMaxNonneg (le_of_lt hnega)
      have hiff : b < int64Max.tdiv a ↔ int64Max < a * b := by
        rw [htd, htd2]
        constructor
        · intro h
          have h1 : ¬(-b ≤ int64Max / (-a)) := by omega
          have h2 : ¬(-b * -a ≤ int64Max) :=
            fun hc => h1 ((Int.le_ediv_iff_mul_le hnega).mpr hc)
          have h3 : -b * -a = a * b := by ring
          omega
        · intro h
          have h3 : -b * -a = a * b := by ring
          have h2 : ¬(-b * -a ≤ int64Max) := by omega
          have h1 : ¬(-b ≤ int64Max / (-a)) :=
            fun hc => h2 ((Int.le_ediv_iff_mul_le hnega).mp hc)
          omega
      have hlow : int64Min ≤ a * b := by
        have h1 : (0 : Int) ≤ -a * -b := mul_nonneg (by omega) (by omega)
        have h2 : -a * -b = a * b := by ring
        have h0 : (0 : Int) ≤ a * b := by omega
        exact le_trans (by decide : int64Min ≤ 0) h0
      simp only [SafeInt64Mult, if_neg (not_lt.mpr ha), if_neg (not_lt.mpr hb),
        Bool.and_eq_true, decide_eq_true_eq, ne_eq]
      by_cases h : int64Max < a * b
      · rw [if_pos ⟨fun hc => ha0 hc, hiff.mpr h⟩,
          if_neg (fun hc => absurd hc.2 (not_le.mpr h))]
      · rw [if_neg (fun hc => h (hiff.mp hc.2)), if_pos ⟨hlow, not_lt.mp h⟩]

/-- The guarded variant of the unsigned multiplication never executes a
division by zero. -/
theorem SafeUnsignedMultChecked_eq (max a b : Nat) :
    SafeUnsignedMultChecked max a b = some (SafeUnsignedMult max a b) := by
  unfold SafeUnsignedMultChecked SafeUnsignedMult checkedDiv
  by_cases h : a = 0
  · subst h; simp
  · simp [h]

/-- The guarded variant of the signed 64-bit multiplication never executes
a division by zero: every quadrant divides only by an operand its branch
condition proves nonzero. -/
theorem SafeInt64MultChecked_eq (a b : Int) :
    SafeInt64MultChecked a b = some (SafeInt64Mult a b) := by
  unfold SafeInt64MultChecked SafeInt64Mult checkedTdiv
  rcases lt_or_le 0 a with ha | ha <;> rcases lt_or_le 0 b with hb | hb
  · simp [if_pos ha, if_pos hb, hb.ne']
  · simp [if_pos ha, if_neg (not_lt.mpr hb), ha.ne']
  · simp [if_neg (not_lt.mpr ha), if_pos hb, hb.ne']
  · by_cases ha0 : a = 0
    · subst ha0
      simp [not_lt.mpr hb]
    · simp [if_neg (not_lt.mpr ha), if_neg (not_lt.mpr hb), ha0]

/-- The guarded variant of the ceiling division never executes a division
by zero: the zero divisor is rejected first. -/
theorem SafeUint32DivideUpChecked_eq (a b : Nat) :
    SafeUint32DivideUpChecked a b = some (SafeUint32DivideUp a b) := by
  unfold SafeUint32DivideUpChecked SafeUint32DivideUp checkedDiv
  by_cases hb : b = 0
  · simp [hb]
  · by_cases ha : a = 0 <;> simp [ha, hb]

/-- The guarded variant of round-up-to-multiple never executes a modulo by
zero: the zero multiple is rejected first. -/
theorem RoundUpUint32ToMultipleChecked_eq (v m : Nat) :
    RoundUpUint32ToMultipleChecked v m = some (RoundUpUint32ToMultiple v m) := by
  unfold RoundUpUint32ToMultipleChecked RoundUpUint32ToMultiple checkedMod
  by_cases hm : m = 0
  · simp [hm]
  · simp [hm]

/-- Claim C1: for int64 operands, SafeInt64Mult returns the exact product
exactly when it is representable in int64 and raises the overflow
condition otherwise; the quadrant analysis decides this with one truncated
division per quadrant, and (third conjunct, via the division-guarded
variant) no branch divides by zero. The source contains no negation, so no
branch can negate the minimum representable value. -/
theorem claim_C1 :
    ∀ a b : Int, int64Min ≤ a → a ≤ int64Max → int64Min ≤ b → b ≤ int64Max →
      (SafeInt64Mult a b = some (a * b) ↔ (int64Min ≤ a * b ∧ a * b ≤ int64Max)) ∧
      (¬(int64Min ≤ a * b ∧ a * b ≤ int64Max) → SafeInt64Mult a b = none) ∧
      SafeInt64MultChecked a b = some (SafeInt64Mult a b) := by
  intro a b _ _ _ _
  have he := SafeInt64Mult_eq a b
  refine ⟨?_, ?_, SafeInt64MultChecked_eq a b⟩
  · by_cases h : int64Min ≤ a * b ∧ a * b ≤ int64Max
    · rw [he, if_pos h]
      exact ⟨fun _ => h, fun _ => rfl⟩
    · rw [he, if_neg h]
      exact ⟨fun hc => Option.noConfusion hc, fun hc => absurd hc h⟩
  · intro hn
    rw [he, if_neg hn]

/-- Witness for claim C1 at operands 3 and 5. -/
theorem claim_C1_witness : SafeInt64Mult 3 5 = some 15 :=
  (claim_C1 3 5 (by decide) (by decide) (by decide) (by decide)).1.mpr (by decide)

/-- Claim C10: in every operation of the module each executed division or
modulo has a nonzero divisor: running the division-guarded variants (in
which any division by zero would surface as an outer failure) always
reproduces the original result. -/
theorem claim_C10 :
    (∀ max a b : Nat, SafeUnsignedMultChecked max a b = some (SafeUnsignedMult max a b)) ∧
    (∀ a b : Int, SafeInt64MultChecked a b = some (SafeInt64Mult a b)) ∧
    (∀ a b : Nat, SafeUint32DivideUpChecked a b = some (SafeUint32DivideUp a b)) ∧
    (∀ v m : Nat, RoundUpUint32ToMultipleChecked v m = some (RoundUpUint32ToMultiple v m)) :=
  ⟨SafeUnsignedMultChecked_eq, SafeInt64MultChecked_eq, SafeUint32DivideUpChecked_eq,
    RoundUpUint32ToMultipleChecked_eq⟩

/-- Claim C7: for an unsigned source value below 2 to the source width,
the narrowing conversion succeeds exactly when the value is below 2 to the
destination width, the stored value cast back to the source type is the
original value, and the stored value is the forward cast of the source. -/
theorem claim_C7 :
    ∀ ws wd src : Nat, src < 2 ^ ws →
      (∀ d, ConvertUnsigned ws wd src = some d → d % 2 ^ ws = src ∧ d = src % 2 ^ wd) ∧
      (ConvertUnsigned ws wd src = none ↔ 2 ^ wd ≤ src) := by
  intro ws wd src hsrc
  simp only [ConvertUnsigned]
  constructor
  · intro d hd
    by_cases h : src % 2 ^ wd % 2 ^ ws ≠ src
    · rw [if_pos h] at hd
      exact Option.noConfusion hd
    · rw [if_neg h] at hd
      cases hd
      exact ⟨not_not.mp h, rfl⟩
  · constructor
    · intro hn
      by_contra hlt
      push_neg at hlt
      simp only [Nat.mod_eq_of_lt hlt, Nat.mod_eq_of_lt hsrc] at hn
      simp at hn
    · intro hge
      have h1 : src % 2 ^ wd < 2 ^ wd := Nat.mod_lt _ (Nat.pow_pos (by omega))
      have h2 : src % 2 ^ wd < src := lt_of_lt_of_le h1 hge
      have h3 : src % 2 ^ wd < 2 ^ ws := lt_trans h2 hsrc
      rw [if_pos (by rw [Nat.mod_eq_of_lt h3]; omega)]

/-- Witness for claim C7 with a 32-bit source and 16-bit destination at
source value 5. -/
theorem claim_C7_witness :
    (∀ d, ConvertUnsigned 32 16 5 = some d → d % 2 ^ 32 = 5 ∧ d = 5 % 2 ^ 16) ∧
    (ConvertUnsigned 32 16 5 = none ↔ 2 ^ 16 ≤ 5) :=
  claim_C7 32 16 5 (by decide)

/-- Claim C8: every status-form operation that returns false leaves the
caller-supplied output slot at the value it held on entry, and the
throwing ConvertUnsigned leaves the destination untouched when it raises:
no failing call performs a partial write. -/
theorem claim_C8 :
    (∀ (a b s : Int), (SafeInt32AddS a b s).1 = false → (SafeInt32AddS a b s).2 = s) ∧
    (∀ (a b s : Nat), (SafeUint32AddS a b s).1 = false → (SafeUint32AddS a b s).2 = s) ∧
    (∀ (a b s : Int), (SafeInt32SubS a b s).1 = false → (SafeInt32SubS a b s).2 = s) ∧
    (∀ (a b s : Nat), (SafeUint32MultS a b s).1 = false → (SafeUint32MultS a b s).2 = s) ∧
    (∀ (a b c s : Nat),
      (SafeUint32Mult3S a b c s).1 = false → (SafeUint32Mult3S a b c s).2 = s) ∧
    (∀ (a b c d s : Nat),
      (SafeUint32Mult4S a b c d s).1 = false → (SafeUint32Mult4S a b c d s).2 = s) ∧
    (∀ (v m s : Nat),
      (RoundUpUint32ToMultipleS v m s).1 = false → (RoundUpUint32ToMultipleS v m s).2 = s) ∧
    (∀ (v : Nat) (s : Int),
      (ConvertUint32ToInt32S v s).1 = false → (ConvertUint32ToInt32S v s).2 = s) ∧
    (∀ (ws wd v s : Nat),
      (ConvertUnsignedW ws wd v s).1 = false → (ConvertUnsignedW ws wd v s).2 = s) := by
  refine ⟨?_, ?_, ?_, ?_, ?_, ?_, ?_, ?_, ?_⟩
  · intro a b s
    unfold SafeInt32AddS
    cases h : SafeInt32Add a b <;> simp [h]
  · intro a b s
    unfold SafeUint32AddS
    cases h : SafeUint32Add a b <;> simp [h]
  · intro a b s
    unfold SafeInt32SubS
    split <;> simp
  · intro a b s
    unfold SafeUint32MultS
    cases h : SafeUint32Mult a b <;> simp [h]
  · intro a b c s
    unfold SafeUint32Mult3S
    cases h : SafeUint32Mult3 a b c <;> simp [h]
  · intro a b c d s
    unfold SafeUint32Mult4S
    cases h : SafeUint32Mult4 a b c d <;> simp [h]
  · intro v m s
    unfold RoundUpUint32ToMultipleS SafeUint32AddS
    by_cases hm : m = 0
    · simp [hm]
    · rw [if_neg hm]
      by_cases h0 : v % m = 0
      · simp [h0]
      · rw [if_neg h0]
        cases h : SafeUint32Add v (m - v % m) <;> simp [h]
  · intro v s
    unfold ConvertUint32ToInt32S
    split <;> simp
  · intro ws wd v s
    simp only [ConvertUnsignedW]
    split <;> simp

/-- Witness for claim C8: each operation fails at the chosen inputs and
leaves the distinct slot value in place. -/
theorem claim_C8_witness :
    (SafeInt32AddS 2147483647 1 7).2 = 7 ∧
    (SafeUint32AddS 4294967295 1 8).2 = 8 ∧
    (SafeInt32SubS (-2147483648) 1 9).2 = 9 ∧
    (SafeUint32MultS 4294967295 2 10).2 = 10 ∧
    (SafeUint32Mult3S 4294967295 2 1 11).2 = 11 ∧
    (SafeUint32Mult4S 4294967295 2 1 1 12).2 = 12 ∧
    (RoundUpUint32ToMultipleS 4294967295 2 13).2 = 13 ∧
    (ConvertUint32ToInt32S 2147483648 14).2 = 14 ∧
    (ConvertUnsignedW 32 16 70000 15).2 = 15 := by
  refine ⟨?_, ?_, ?_, ?_, ?_, ?_, ?_, ?_, ?_⟩
  · exact claim_C8.1 2147483647 1 7 (by decide)
  · exact claim_C8.2.1 4294967295 1 8 (by decide)
  · exact claim_C8.2.2.1 (-2147483648) 1 9 (by decide)
  · exact claim_C8.2.2.2.1 4294967295 2 10 (by decide)
  · exact claim_C8.2.2.2.2.1 4294967295 2 1 11 (by decide)
  · exact claim_C8.2.2.2.2.2.1 4294967295 2 1 1 12 (by decide)
  · exact claim_C8.2.2.2.2.2.2.1 4294967295 2 13 (by decide)
  · exact claim_C8.2.2.2.2.2.2.2.1 2147483648 14 (by decide)
  · exact claim_C8.2.2.2.2.2.2.2.2 32 16 70000 15 (by decide)

/-- Claim C9 counterexample: the status form of signed 32-bit addition is
a catch-and-convert wrapper, not a direct check: at the overflowing input
INT32_MAX plus 1 it catches the condition raised by the throwing form
(caught-condition flag true), refuting the claim that the addition status
forms never route through the raising path. -/
theorem claim_C9_counterexample : (SafeInt32AddC 2147483647 1 0).2.2 = true := by decide

/-- Claim C9 as amended: only the subtraction status form implements its
range check directly and never touches the raising path; the addition
status forms invoke the throwing form and catch a raised condition exactly
when they return false, and round-up-to-multiple delegates its addition to
the catching addition status form, so it catches a raised condition
exactly when its delegated addition fails. -/
theorem claim_C9_amended :
    (∀ (a b s : Int), (SafeInt32SubC a b s).2.2 = false) ∧
    (∀ (a b s : Int), ((SafeInt32AddC a b s).2.2 = true ↔ SafeInt32Add a b = none)) ∧
    (∀ (a b s : Nat), ((SafeUint32AddC a b s).2.2 = true ↔ SafeUint32Add a b = none)) ∧
    (∀ (v m s : Nat), ((RoundUpUint32ToMultipleC v m s).2.2 = true ↔
        (m ≠ 0 ∧ v % m ≠ 0 ∧ SafeUint32Add v (m - v % m) = none))) := by
  refine ⟨?_, ?_, ?_, ?_⟩
  · intro a b s
    unfold SafeInt32SubC
    split <;> simp
  · intro a b s
    unfold SafeInt32AddC
    cases h : SafeInt32Add a b <;> simp [h]
  · intro a b s
    unfold SafeUint32AddC
    cases h : SafeUint32Add a b <;> simp [h]
  · intro v m s
    unfold RoundUpUint32ToMultipleC SafeUint32AddC
    by_cases hm : m = 0
    · simp [hm]
    · rw [if_neg hm]
      by_cases h0 : v % m = 0
      · simp [hm, h0]
      · rw [if_neg h0]
        cases h : SafeUint32Add v (m - v % m) <;> simp [hm, h0, h]
